import Mathlib

/-!
Verification of the job-orchestration core of the ego-studio repository.

The development shallowly embeds the filesystem-authoritative job store and
its operations:

* `JobState`, `Actor`, `TRANSITION_RULES`, `validateTransition` embed
  server/lib/job-state.ts.
* `FS`, `readMetadata`, `writeMetadata`, `appendToJobLog`, `writeArtifact`,
  `getJobStateDir`, `listAllJobs` embed server/lib/filesystem.ts.
* `moveJob`, `moveJobIdempotent`, `reclaimJob` embed server/lib/job-moves.ts.
* `retryJob` embeds the retry service.

Modelling conventions: ISO-8601 millisecond timestamps are embedded as `Nat`
(milliseconds since the epoch; the ISO encoding is order-isomorphic for the
dates the code produces), the wall clock is passed explicitly as a `now`
argument, thrown exceptions become the `Except.error` component of a result
pair whose second component is the filesystem state after the call (so
partial mutation before a throw is representable), and a directory listing
is a `List` in readdir order.
-/

set_option maxHeartbeats 1000000

/-- Job lifecycle states; mirrors `JOB_STATES` in filesystem.ts.
The state of a job is the name of the directory holding its folder. -/
inductive JobState where
  | NEW
  | CLAIMED
  | RUNNING
  | DONE
  | FAILED
deriving DecidableEq, Repr, Fintype

/-- Directory name of each state (`JOB_STATES` values). -/
def stateDirName : JobState → String
  | .NEW => "NEW"
  | .CLAIMED => "CLAIMED"
  | .RUNNING => "RUNNING"
  | .DONE => "DONE"
  | .FAILED => "FAILED"

/-- The order in which the code scans state directories:
`Object.values(JOB_STATES)` in filesystem.ts. -/
def JOB_STATES_ORDER : List JobState :=
  [.NEW, .CLAIMED, .RUNNING, .DONE, .FAILED]

/-- Actors that can transition states; mirrors `enum Actor` in job-state.ts. -/
inductive Actor where
  | DOWNLOAD_WORKER
  | DEMUCS_WORKER
  | LYRICS_WORKER
  | AUDACITY_WORKER
  | SYSTEM
  | USER
deriving DecidableEq, Repr, Fintype

/-- String value of each `Actor` enum member. -/
def actorName : Actor → String
  | .DOWNLOAD_WORKER => "DOWNLOAD_WORKER"
  | .DEMUCS_WORKER => "DEMUCS_WORKER"
  | .LYRICS_WORKER => "LYRICS_WORKER"
  | .AUDACITY_WORKER => "AUDACITY_WORKER"
  | .SYSTEM => "SYSTEM"
  | .USER => "USER"

/-- Stage record status values; union of the per-stage status literals of
`JobMetadata` in filesystem.ts. -/
inductive StageStatus where
  | COMPLETE
  | FAILED
  | NOT_STARTED
  | NOT_FOUND
deriving DecidableEq, Repr

/-- A per-stage record inside the metadata (`download`, `separation`,
`lyrics`, `audacity` objects); stage-specific extras are abstracted to the
optional `error` field, which the claims need. -/
structure StageRecord where
  status : StageStatus
  error : Option String := none
deriving DecidableEq, Repr

/-- The `JobMetadata` record of filesystem.ts (metadata.json).
Timestamps are `Nat` milliseconds. -/
structure JobMetadata where
  id : String
  youtubeUrl : String
  state : JobState
  createdAt : Nat
  updatedAt : Nat
  ownerId : Option String := none
  leaseExpiresAt : Option Nat := none
  download : Option StageRecord := none
  separation : Option StageRecord := none
  lyrics : Option StageRecord := none
  audacity : Option StageRecord := none
deriving DecidableEq, Repr

/-- One appended line of logs/job.log: `[timestamp] message`. -/
structure LogLine where
  ts : Nat
  msg : String
deriving DecidableEq, Repr

/-- One artifact file `jobDir/<stage>/<name>` holding `data`. -/
structure Artifact where
  stage : String
  name : String
  data : String
deriving DecidableEq, Repr

/-- The contents of one job folder: an optional metadata.json, the
append-only log, and the artifact files. -/
structure JobFolder where
  meta : Option JobMetadata
  log : List LogLine
  artifacts : List Artifact
deriving DecidableEq, Repr

/-- A directory entry: job folder name (the jobId) paired with contents. -/
abbrev DirEnt := String × JobFolder

/-- The storage tree `storageRoot/jobs/<STATE>/`: one listing per state
directory, each in readdir order. -/
structure FS where
  dNEW : List DirEnt
  dCLAIMED : List DirEnt
  dRUNNING : List DirEnt
  dDONE : List DirEnt
  dFAILED : List DirEnt
deriving DecidableEq, Repr

/-- Listing of the state directory `storageRoot/jobs/<st>/`. -/
def FS.dir (fs : FS) : JobState → List DirEnt
  | .NEW => fs.dNEW
  | .CLAIMED => fs.dCLAIMED
  | .RUNNING => fs.dRUNNING
  | .DONE => fs.dDONE
  | .FAILED => fs.dFAILED

/-- Replace the listing of one state directory. -/
def FS.setDir (fs : FS) : JobState → List DirEnt → FS
  | .NEW, l => { fs with dNEW := l }
  | .CLAIMED, l => { fs with dCLAIMED := l }
  | .RUNNING, l => { fs with dRUNNING := l }
  | .DONE, l => { fs with dDONE := l }
  | .FAILED, l => { fs with dFAILED := l }

/-- Look a job folder up inside one state directory (path existence test of
`storageRoot/jobs/<st>/<jobId>`). -/
def findInDir (d : List DirEnt) (jobId : String) : Option DirEnt :=
  d.find? (fun p => p.1 == jobId)

/-- Embeds `readMetadata` of filesystem.ts: scan every state directory in order and
return the first metadata.json found, `none` when no state directory holds
a readable record for the job. -/
def readMetadata (fs : FS) (jobId : String) : Option JobMetadata :=
  (JOB_STATES_ORDER.filterMap
    (fun st => (findInDir (fs.dir st) jobId).bind (fun p => p.2.meta))).head?

/-- Write metadata.json inside one state directory listing: `fs.ensureDir`
creates the job folder when it is missing, `fs.writeJSON` replaces the file
otherwise. -/
def setMetaInDir : List DirEnt → String → JobMetadata → List DirEnt
  | [], jobId, m => [(jobId, ⟨some m, [], []⟩)]
  | p :: rest, jobId, m =>
    if p.1 == jobId then (p.1, { p.2 with meta := some m }) :: rest
    else p :: setMetaInDir rest jobId m

/-- Embeds `writeMetadata` of filesystem.ts: stamps `updatedAt := now` and writes
metadata.json into the state directory named by `metadata.state`. -/
def writeMetadata (fs : FS) (now : Nat) (jobId : String) (m : JobMetadata) : FS :=
  fs.setDir m.state (setMetaInDir (fs.dir m.state) jobId { m with updatedAt := now })

/-- Embeds `getJobStateDir` of filesystem.ts: the first state directory (in scan
order) that holds the job folder. -/
def getJobStateDir (fs : FS) (jobId : String) : Option JobState :=
  JOB_STATES_ORDER.find? (fun st => (findInDir (fs.dir st) jobId).isSome)

/-- Append one line to logs/job.log of the matching folder of one state
directory listing. -/
def appendLogInDir : List DirEnt → String → LogLine → List DirEnt
  | [], _, _ => []
  | p :: rest, jobId, line =>
    if p.1 == jobId then (p.1, { p.2 with log := p.2.log ++ [line] }) :: rest
    else p :: appendLogInDir rest jobId line

/-- Embeds `appendToJobLog` of filesystem.ts: locate the job, then append
`[timestamp] message` to its log; throws when the job folder is missing. -/
def appendToJobLog (fs : FS) (now : Nat) (jobId : String) (message : String) :
    Except String Unit × FS :=
  match getJobStateDir fs jobId with
  | none => (.error ("Job " ++ jobId ++ " not found"), fs)
  | some st =>
    (.ok (), fs.setDir st (appendLogInDir (fs.dir st) jobId ⟨now, message⟩))

/-- Embeds `fs.writeFile` on `jobDir/<stage>/<name>`: replaces the file when the
exact (stage, name) pair already exists, creates it otherwise. -/
def putArtifact : List Artifact → String → String → String → List Artifact
  | [], stage, name, data => [⟨stage, name, data⟩]
  | a :: rest, stage, name, data =>
    if a.stage == stage && a.name == name then ⟨a.stage, a.name, data⟩ :: rest
    else a :: putArtifact rest stage name data

/-- Apply `putArtifact` to the matching folder of one directory listing. -/
def putArtifactInDir : List DirEnt → String → String → String → String → List DirEnt
  | [], _, _, _, _ => []
  | p :: rest, jobId, stage, name, data =>
    if p.1 == jobId then
      (p.1, { p.2 with artifacts := putArtifact p.2.artifacts stage name data }) :: rest
    else p :: putArtifactInDir rest jobId stage name data

/-- Embeds `writeArtifact` of filesystem.ts: locate the job, ensure
`jobDir/<artifactType>/`, write the file, and return its path (given here
relative to `storageRoot`). -/
def writeArtifact (fs : FS) (jobId artifactType fileName data : String) :
    Except String String × FS :=
  match getJobStateDir fs jobId with
  | none => (.error ("Job " ++ jobId ++ " not found"), fs)
  | some st =>
    let filePath :=
      "jobs/" ++ stateDirName st ++ "/" ++ jobId ++ "/" ++ artifactType ++ "/" ++ fileName
    (.ok filePath,
     fs.setDir st (putArtifactInDir (fs.dir st) jobId artifactType fileName data))

/-- Embeds `TRANSITION_RULES` of job-state.ts: maps a (from, to) pair to the list
of authorized actors; `none` when the pair is not a key of the table (the
`DONE` row of the source is an empty object, so every `DONE → _` lookup is
undefined). -/
def TRANSITION_RULES : JobState → JobState → Option (List Actor)
  | .NEW, .CLAIMED => some [.SYSTEM, .DOWNLOAD_WORKER]
  | .CLAIMED, .RUNNING => some [.DOWNLOAD_WORKER]
  | .CLAIMED, .NEW => some [.SYSTEM]
  | .RUNNING, .DONE => some [.DOWNLOAD_WORKER, .DEMUCS_WORKER, .AUDACITY_WORKER]
  | .RUNNING, .FAILED => some [.DOWNLOAD_WORKER, .DEMUCS_WORKER, .AUDACITY_WORKER]
  | .RUNNING, .NEW => some [.SYSTEM]
  | .FAILED, .NEW => some [.SYSTEM, .USER]
  | _, _ => none

/-- Return shape of `validateTransition`. -/
structure ValidationResult where
  valid : Bool
  reason : Option String := none
deriving DecidableEq, Repr

/-- Embeds `validateTransition` of job-state.ts. -/
def validateTransition (fromState toState : JobState) (actor : Actor) :
    ValidationResult :=
  match TRANSITION_RULES fromState toState with
  | none =>
    ⟨false, some ("Invalid transition: " ++ stateDirName fromState ++ " -> "
      ++ stateDirName toState)⟩
  | some allowedActors =>
    if allowedActors.contains actor then ⟨true, none⟩
    else
      ⟨false, some ("Actor " ++ actorName actor ++ " not authorized for transition "
        ++ stateDirName fromState ++ " -> " ++ stateDirName toState ++ ". Allowed: "
        ++ String.intercalate ", " (allowedActors.map actorName))⟩

/-- Embeds `fs.move(fromDir, toDir)`: remove the first folder named `jobId` from one
directory listing. -/
def removeFromDir : List DirEnt → String → List DirEnt
  | [], _ => []
  | p :: rest, jobId => if p.1 == jobId then rest else p :: removeFromDir rest jobId

/-- Embeds `moveJob` of job-moves.ts: validate the transition, check the source
folder exists and the target does not, rename the folder, then (when a
metadata record is readable) set `state := toState`, write it back, and
append the transition log line. -/
def moveJob (fs : FS) (now : Nat) (jobId : String) (fromState toState : JobState)
    (actor : Actor) : Except String Unit × FS :=
  let validation := validateTransition fromState toState actor
  if validation.valid then
    match findInDir (fs.dir fromState) jobId with
    | none =>
      (.error ("Job " ++ jobId ++ " not found in state " ++ stateDirName fromState), fs)
    | some entry =>
      if (findInDir (fs.dir toState) jobId).isSome then
        (.error ("Job " ++ jobId ++ " already exists in state " ++ stateDirName toState), fs)
      else
        let fs1 := fs.setDir fromState (removeFromDir (fs.dir fromState) jobId)
        let fs2 := fs1.setDir toState (fs1.dir toState ++ [(jobId, entry.2)])
        match readMetadata fs2 jobId with
        | none => (.ok (), fs2)
        | some m =>
          let fs3 := writeMetadata fs2 now jobId { m with state := toState }
          appendToJobLog fs3 now jobId
            ("Transitioned to " ++ stateDirName toState ++ " by " ++ actorName actor)
  else
    (.error ("Invalid transition: " ++ validation.reason.getD ""), fs)

/-- Embeds `moveJobIdempotent` of job-moves.ts. -/
def moveJobIdempotent (fs : FS) (now : Nat) (jobId : String)
    (fromState toState : JobState) (actor : Actor) : Except String Bool × FS :=
  match readMetadata fs jobId with
  | none => (.error ("Job " ++ jobId ++ " not found"), fs)
  | some m =>
    if m.state = toState then (.ok true, fs)
    else if m.state ≠ fromState then
      (.error ("Job " ++ jobId ++ " is in state " ++ stateDirName m.state
        ++ ", expected " ++ stateDirName fromState), fs)
    else
      let r := moveJob fs now jobId fromState toState actor
      (r.1.map (fun _ => true), r.2)

/-- The reclaim arm of `reclaimJob`: move back to NEW as SYSTEM and append
the reclaim log line. -/
def reclaimMove (fs : FS) (now : Nat) (jobId : String) (m : JobMetadata) :
    Except String Unit × FS :=
  let r := moveJob fs now jobId m.state .NEW .SYSTEM
  match r.1 with
  | .error e => (.error e, r.2)
  | .ok _ =>
    appendToJobLog r.2 now jobId
      ("Reclaimed from " ++ stateDirName m.state ++ " (lease expired)")

/-- Embeds `reclaimJob` of job-moves.ts. -/
def reclaimJob (fs : FS) (now : Nat) (jobId : String) : Except String Unit × FS :=
  match readMetadata fs jobId with
  | none => (.error ("Job " ++ jobId ++ " not found"), fs)
  | some m =>
    if m.state = .NEW ∨ m.state = .DONE ∨ m.state = .FAILED then (.ok (), fs)
    else if m.state = .CLAIMED ∨ m.state = .RUNNING then
      match m.leaseExpiresAt with
      | some lease => if now < lease then (.ok (), fs) else reclaimMove fs now jobId m
      | none => reclaimMove fs now jobId m
    else (.ok (), fs)

/-- Return shape of `retryJob`. -/
structure RetryResult where
  jobId : String
  state : JobState
  message : String
deriving DecidableEq, Repr

/-- Embeds `retryJob` of the retry service: requires current state FAILED, logs the
retry reason, moves FAILED → NEW as USER, then clears the `download` record
of the re-read metadata. -/
def retryJob (fs : FS) (now : Nat) (jobId : String) (reason : String) :
    Except String RetryResult × FS :=
  match readMetadata fs jobId with
  | none => (.error ("Job " ++ jobId ++ " not found"), fs)
  | some m =>
    if m.state = .FAILED then
      let r1 := appendToJobLog fs now jobId ("[USER] Retrying job: " ++ reason)
      match r1.1 with
      | .error e => (.error e, r1.2)
      | .ok _ =>
        let r2 := moveJob r1.2 now jobId .FAILED .NEW .USER
        match r2.1 with
        | .error e => (.error e, r2.2)
        | .ok _ =>
          let fs3 :=
            match readMetadata r2.2 jobId with
            | some updated => writeMetadata r2.2 now jobId { updated with download := none }
            | none => r2.2
          (.ok ⟨jobId, .NEW, "Job " ++ jobId ++ " has been reset and will be retried"⟩, fs3)
    else
      (.error ("Cannot retry job in state " ++ stateDirName m.state
        ++ ". Only FAILED jobs can be retried."), fs)

/-- One row of the `listAllJobs` result. -/
structure JobListing where
  jobId : String
  state : JobState
  metadata : JobMetadata
deriving DecidableEq, Repr

/-- Embeds `listJobsByState` of filesystem.ts: readdir of one state directory. -/
def listJobsByState (fs : FS) (st : JobState) : List String :=
  (fs.dir st).map (fun p => p.1)

/-- The enumeration loop of `listAllJobs` before sorting: every state
directory in scan order, every folder in readdir order, keeping the jobs
whose metadata is readable. -/
def listAllJobsUnsorted (fs : FS) : List JobListing :=
  (JOB_STATES_ORDER.map (fun st =>
    (listJobsByState fs st).filterMap (fun jobId =>
      (readMetadata fs jobId).map (fun m => ⟨jobId, st, m⟩)))).flatten

/-- Insertion step of the stable descending sort by `createdAt`. -/
def insertByCreatedAtDesc (x : JobListing) : List JobListing → List JobListing
  | [] => [x]
  | y :: ys =>
    if y.metadata.createdAt ≤ x.metadata.createdAt then x :: y :: ys
    else y :: insertByCreatedAtDesc x ys

/-- The sort call of `listAllJobs`:
`jobs.sort((a, b) => b.createdAt - a.createdAt)`, a stable sort by
`createdAt` descending (Array.prototype.sort is stable). -/
def sortByCreatedAtDesc : List JobListing → List JobListing
  | [] => []
  | x :: xs => insertByCreatedAtDesc x (sortByCreatedAtDesc xs)

/-- Embeds `listAllJobs` of filesystem.ts: enumerate, then sort by `createdAt`
descending. -/
def listAllJobs (fs : FS) : List JobListing :=
  sortByCreatedAtDesc (listAllJobsUnsorted fs)

/-- Modelled from the spec: strict lexicographic order on character codes,
used to spell out the "jobId lexicographic" tie-break the spec claims. -/
def charLexLt : List Char → List Char → Bool
  | [], [] => false
  | [], _ :: _ => true
  | _ :: _, [] => false
  | c :: cs, d :: ds =>
    Nat.blt c.toNat d.toNat || (c.toNat == d.toNat && charLexLt cs ds)

/-- Modelled from the spec: the listing order the spec claims for
`enumerate` — `createdAt` descending with ties broken by `jobId`
lexicographic. Defined only to compare the claimed order against
`listAllJobs`; it is not part of the source. -/
def specListingLe (a b : JobListing) : Bool :=
  Nat.blt b.metadata.createdAt a.metadata.createdAt ||
    (b.metadata.createdAt == a.metadata.createdAt &&
      (a.jobId == b.jobId || charLexLt a.jobId.toList b.jobId.toList))

/-- Modelled from the spec: a listing is in the order the spec claims when
every adjacent pair satisfies `specListingLe`. -/
def specOrdered : List JobListing → Bool
  | [] => true
  | [_] => true
  | a :: b :: rest => specListingLe a b && specOrdered (b :: rest)

/-- The job occupies exactly one path on the whole storage tree: its folder
is in the directory of `st`, that directory holds it once, and no other
state directory holds it. This is invariant 1 of the spec (and what a real
filesystem guarantees for a rename-maintained tree). -/
def jobUnique (fs : FS) (jobId : String) (st : JobState) (folder : JobFolder) : Prop :=
  findInDir (fs.dir st) jobId = some (jobId, folder) ∧
  findInDir (removeFromDir (fs.dir st) jobId) jobId = none ∧
  ∀ st2, st2 ≠ st → findInDir (fs.dir st2) jobId = none

/-! ### Concrete storage trees used to evaluate the operations -/

/-- A job that reached DONE. -/
def mC1 : JobMetadata :=
  { id := "jw1", youtubeUrl := "https://youtube.com/watch?v=w1", state := .DONE,
    createdAt := 10, updatedAt := 20 }

/-- Tree holding only `jw1`, in the DONE directory. -/
def fsC1 : FS := ⟨[], [], [], [("jw1", ⟨some mC1, [], []⟩)], []⟩

/-- A running job about to receive artifacts. -/
def mC4 : JobMetadata :=
  { id := "j4", youtubeUrl := "https://youtube.com/watch?v=w4", state := .RUNNING,
    createdAt := 1, updatedAt := 2 }

/-- Tree holding only `j4`, in the RUNNING directory, no artifacts yet. -/
def fsC4 : FS := ⟨[], [], [("j4", ⟨some mC4, [], []⟩)], [], []⟩

/-- The tree after a first `writeArtifact` call for (lyrics, lyrics.lrc). -/
def fsC4a : FS := (writeArtifact fsC4 "j4" "lyrics" "lyrics.lrc" "v1").2

/-- A claimed job whose lease expired at instant 100. -/
def mC5 : JobMetadata :=
  { id := "jw5", youtubeUrl := "https://youtube.com/watch?v=w5", state := .CLAIMED,
    createdAt := 40, updatedAt := 50, leaseExpiresAt := some 100 }

/-- The folder of `jw5`. -/
def folderC5 : JobFolder := ⟨some mC5, [], []⟩

/-- Tree holding only `jw5`, in the CLAIMED directory. -/
def fsC5 : FS := ⟨[], [("jw5", folderC5)], [], [], []⟩

/-- A job that failed in its lyrics stage: the download stage completed and
the lyrics stage carries the failure record. -/
def mC6 : JobMetadata :=
  { id := "j6", youtubeUrl := "https://youtube.com/watch?v=w6", state := .FAILED,
    createdAt := 30, updatedAt := 40,
    download := some ⟨.COMPLETE, none⟩,
    lyrics := some ⟨.FAILED, some "no lyrics found"⟩ }

/-- The folder of `j6`. -/
def folderC6 : JobFolder := ⟨some mC6, [], []⟩

/-- Tree holding only `j6`, in the FAILED directory. -/
def fsC6 : FS := ⟨[], [], [], [], [("j6", folderC6)]⟩

/-- A claimed job used to exercise `moveJobIdempotent`. -/
def mC7 : JobMetadata :=
  { id := "j7", youtubeUrl := "https://youtube.com/watch?v=w7", state := .CLAIMED,
    createdAt := 3, updatedAt := 4 }

/-- Tree holding only `j7`, in the CLAIMED directory. -/
def fsC7 : FS := ⟨[], [("j7", ⟨some mC7, [], []⟩)], [], [], []⟩

/-- Two jobs created at the same instant 500, listed with `zz` before `aa`
in the NEW directory. -/
def mC8zz : JobMetadata :=
  { id := "zz", youtubeUrl := "https://youtube.com/watch?v=zz", state := .NEW,
    createdAt := 500, updatedAt := 500 }

/-- Metadata of the second tied job. -/
def mC8aa : JobMetadata :=
  { id := "aa", youtubeUrl := "https://youtube.com/watch?v=aa", state := .NEW,
    createdAt := 500, updatedAt := 500 }

/-- Tree with the two tied jobs in readdir order `zz`, `aa`. -/
def fsC8 : FS :=
  ⟨[("zz", ⟨some mC8zz, [], []⟩), ("aa", ⟨some mC8aa, [], []⟩)], [], [], [], []⟩

/-- A fresh job; both timestamps are the creation instant 1000. -/
def mC9 : JobMetadata :=
  { id := "j9", youtubeUrl := "https://youtube.com/watch?v=w9", state := .NEW,
    createdAt := 1000, updatedAt := 1000 }

/-- The folder of `j9`. -/
def folderC9 : JobFolder := ⟨some mC9, [], []⟩

/-- Tree holding only `j9`, in the NEW directory. -/
def fsC9 : FS := ⟨[("j9", folderC9)], [], [], [], []⟩

/-- The tree after moving `j9` NEW → CLAIMED at clock instant 1000. -/
def fsC9a : FS := (moveJob fsC9 1000 "j9" .NEW .CLAIMED .SYSTEM).2

/-- A job folder with a log but no readable metadata.json. -/
def folderC10 : JobFolder := ⟨none, [⟨5, "Job created"⟩], []⟩

/-- Tree holding only `j10`, in the NEW directory, without metadata. -/
def fsC10 : FS := ⟨[("j10", folderC10)], [], [], [], []⟩

/-! ### Helper lemmas about the storage-tree model -/

theorem dir_setDir_self (fs : FS) (st : JobState) (l : List DirEnt) :
    (fs.setDir st l).dir st = l := by
  cases st <;> rfl

theorem dir_setDir_ne (fs : FS) (st st2 : JobState) (l : List DirEnt)
    (h : st2 ≠ st) : (fs.setDir st l).dir st2 = fs.dir st2 := by
  cases st <;> cases st2 <;> first | rfl | exact absurd rfl h

theorem setDir_setDir_self (fs : FS) (st : JobState) (l1 l2 : List DirEnt) :
    (fs.setDir st l1).setDir st l2 = fs.setDir st l2 := by
  cases st <;> rfl

theorem find?_append_of_none {α : Type} (p : α → Bool) (l1 l2 : List α)
    (h : l1.find? p = none) : (l1 ++ l2).find? p = l2.find? p := by
  induction l1 with
  | nil => rfl
  | cons a rest ih =>
    cases hpa : p a with
    | true => simp [List.find?, hpa] at h
    | false =>
      simp only [List.find?, hpa] at h
      simp only [List.cons_append, List.find?, hpa]
      exact ih h

theorem findInDir_append_of_none {l1 l2 : List DirEnt} {jobId : String}
    (h : findInDir l1 jobId = none) :
    findInDir (l1 ++ l2) jobId = findInDir l2 jobId :=
  find?_append_of_none _ l1 l2 h

theorem findInDir_cons_self (jobId : String) (f : JobFolder) (rest : List DirEnt) :
    findInDir ((jobId, f) :: rest) jobId = some (jobId, f) := by
  simp [findInDir, List.find?]

theorem setMetaInDir_append_of_none {l1 l2 : List DirEnt} {jobId : String}
    {m : JobMetadata} (h : findInDir l1 jobId = none) :
    setMetaInDir (l1 ++ l2) jobId m = l1 ++ setMetaInDir l2 jobId m := by
  induction l1 with
  | nil => rfl
  | cons p rest ih =>
    cases hpa : (p.1 == jobId) with
    | true => simp [findInDir, List.find?, hpa] at h
    | false =>
      simp only [findInDir, List.find?, hpa] at h
      simp only [List.cons_append, setMetaInDir, hpa, Bool.false_eq_true,
        if_false, List.cons.injEq, true_and]
      exact ih h

theorem setMetaInDir_cons_self (jobId : String) (f : JobFolder)
    (rest : List DirEnt) (m : JobMetadata) :
    setMetaInDir ((jobId, f) :: rest) jobId m =
      (jobId, { f with meta := some m }) :: rest := by
  simp [setMetaInDir]

theorem appendLogInDir_append_of_none {l1 l2 : List DirEnt} {jobId : String}
    {line : LogLine} (h : findInDir l1 jobId = none) :
    appendLogInDir (l1 ++ l2) jobId line = l1 ++ appendLogInDir l2 jobId line := by
  induction l1 with
  | nil => rfl
  | cons p rest ih =>
    cases hpa : (p.1 == jobId) with
    | true => simp [findInDir, List.find?, hpa] at h
    | false =>
      simp only [findInDir, List.find?, hpa] at h
      simp only [List.cons_append, appendLogInDir, hpa, Bool.false_eq_true,
        if_false, List.cons.injEq, true_and]
      exact ih h

theorem appendLogInDir_cons_self (jobId : String) (f : JobFolder)
    (rest : List DirEnt) (line : LogLine) :
    appendLogInDir ((jobId, f) :: rest) jobId line =
      (jobId, { f with log := f.log ++ [line] }) :: rest := by
  simp [appendLogInDir]

theorem findInDir_appendLogInDir_self {l : List DirEnt} {jobId : String}
    {f : JobFolder} (line : LogLine) (h : findInDir l jobId = some (jobId, f)) :
    findInDir (appendLogInDir l jobId line) jobId =
      some (jobId, { f with log := f.log ++ [line] }) := by
  induction l with
  | nil => simp [findInDir, List.find?] at h
  | cons p rest ih =>
    cases hpa : (p.1 == jobId) with
    | true =>
      simp only [findInDir, List.find?, hpa] at h
      cases h
      simp [appendLogInDir, findInDir, List.find?, hpa]
    | false =>
      simp only [findInDir, List.find?, hpa] at h
      simp only [appendLogInDir, hpa, Bool.false_eq_true, if_false,
        findInDir, List.find?]
      exact ih h

theorem removeFromDir_appendLogInDir (l : List DirEnt) (jobId : String)
    (line : LogLine) :
    removeFromDir (appendLogInDir l jobId line) jobId = removeFromDir l jobId := by
  induction l with
  | nil => rfl
  | cons p rest ih =>
    cases hpa : (p.1 == jobId) with
    | true => simp [appendLogInDir, removeFromDir, hpa]
    | false => simp [appendLogInDir, removeFromDir, hpa, ih]

theorem readMetadata_eq_of_unique (fs : FS) (jobId : String) (st : JobState)
    (folder : JobFolder)
    (h1 : findInDir (fs.dir st) jobId = some (jobId, folder))
    (h3 : ∀ st2, st2 ≠ st → findInDir (fs.dir st2) jobId = none) :
    readMetadata fs jobId = folder.meta := by
  cases st <;> cases hm : folder.meta <;>
    simp [readMetadata, JOB_STATES_ORDER, h1, h3, hm]

theorem getJobStateDir_eq_of_unique (fs : FS) (jobId : String) (st : JobState)
    (e : DirEnt) (h1 : findInDir (fs.dir st) jobId = some e)
    (h3 : ∀ st2, st2 ≠ st → findInDir (fs.dir st2) jobId = none) :
    getJobStateDir fs jobId = some st := by
  cases st <;> simp [getJobStateDir, JOB_STATES_ORDER, List.find?, h1, h3]

/-- Symbolic execution of a successful `moveJob` on a consistent tree: the
folder is renamed from the directory of `a` to the directory of `b`, the
metadata is rewritten with `state := b` and `updatedAt := now`, and the
transition line is appended to the log. -/
theorem moveJob_effect (fs : FS) (now : Nat) (jobId : String) (a b : JobState)
    (act : Actor) (folder : JobFolder) (m : JobMetadata)
    (hu : jobUnique fs jobId a folder) (hmeta : folder.meta = some m)
    (hvalid : (validateTransition a b act).valid = true) (hab : a ≠ b) :
    moveJob fs now jobId a b act =
      (.ok (), (fs.setDir a (removeFromDir (fs.dir a) jobId)).setDir b
        (fs.dir b ++ [(jobId,
          ⟨some { m with state := b, updatedAt := now },
           folder.log ++
             [⟨now, "Transitioned to " ++ stateDirName b ++ " by " ++ actorName act⟩],
           folder.artifacts⟩)])) := by
  obtain ⟨h1, h2, h3⟩ := hu
  have hb : findInDir (fs.dir b) jobId = none := h3 b (Ne.symm hab)
  have hd1b : (fs.setDir a (removeFromDir (fs.dir a) jobId)).dir b = fs.dir b :=
    dir_setDir_ne _ _ _ _ (Ne.symm hab)
  set F2 : FS := (fs.setDir a (removeFromDir (fs.dir a) jobId)).setDir b
    (fs.dir b ++ [(jobId, folder)]) with hF2
  have h2b : F2.dir b = fs.dir b ++ [(jobId, folder)] := dir_setDir_self _ _ _
  have h3' : ∀ st2, st2 ≠ b → findInDir (F2.dir st2) jobId = none := by
    intro st2 hne
    rw [hF2, dir_setDir_ne _ _ _ _ hne]
    by_cases hsa : st2 = a
    · subst hsa; rw [dir_setDir_self]; exact h2
    · rw [dir_setDir_ne _ _ _ _ hsa]; exact h3 st2 hsa
  have h1' : findInDir (F2.dir b) jobId = some (jobId, folder) := by
    rw [h2b, findInDir_append_of_none hb, findInDir_cons_self]
  have hrm : readMetadata F2 jobId = some m := by
    rw [readMetadata_eq_of_unique F2 jobId b folder h1' h3', hmeta]
  -- the metadata write
  set mNew : JobMetadata := { m with state := b, updatedAt := now } with hmNew
  set folderM : JobFolder := { folder with meta := some mNew } with hfolderM
  have hwrite : writeMetadata F2 now jobId { m with state := b } =
      F2.setDir b (fs.dir b ++ [(jobId, folderM)]) := by
    simp only [writeMetadata]
    rw [h2b, setMetaInDir_append_of_none hb, setMetaInDir_cons_self]
  set F3 : FS := F2.setDir b (fs.dir b ++ [(jobId, folderM)]) with hF3
  have h3b : F3.dir b = fs.dir b ++ [(jobId, folderM)] := dir_setDir_self _ _ _
  have h3'' : ∀ st2, st2 ≠ b → findInDir (F3.dir st2) jobId = none := by
    intro st2 hne
    rw [hF3, dir_setDir_ne _ _ _ _ hne]
    exact h3' st2 hne
  have h1'' : findInDir (F3.dir b) jobId = some (jobId, folderM) := by
    rw [h3b, findInDir_append_of_none hb, findInDir_cons_self]
  have hgsd : getJobStateDir F3 jobId = some b :=
    getJobStateDir_eq_of_unique F3 jobId b _ h1'' h3''
  have happend : appendToJobLog F3 now jobId
      ("Transitioned to " ++ stateDirName b ++ " by " ++ actorName act) =
      (.ok (), F3.setDir b (fs.dir b ++ [(jobId,
        { folderM with log := folderM.log ++
          [⟨now, "Transitioned to " ++ stateDirName b ++ " by " ++ actorName act⟩] })])) := by
    simp only [appendToJobLog, hgsd]
    rw [h3b, appendLogInDir_append_of_none hb, appendLogInDir_cons_self]
  -- assemble
  rw [moveJob]
  simp only [hvalid, if_true, h1, hb, Option.isSome_none, Bool.false_eq_true,
    if_false]
  rw [hd1b, ← hF2]
  rw [hrm]
  dsimp only
  rw [hwrite, happend]
  rw [hF3, setDir_setDir_self, hF2, setDir_setDir_self]

/-! ### Lemmas about the stable sort of the enumeration -/

theorem insertByCreatedAtDesc_perm (x : JobListing) (l : List JobListing) :
    (insertByCreatedAtDesc x l).Perm (x :: l) := by
  induction l with
  | nil => exact List.Perm.refl _
  | cons y ys ih =>
    by_cases hc : y.metadata.createdAt ≤ x.metadata.createdAt
    · simp only [insertByCreatedAtDesc, hc, if_true]
      exact List.Perm.refl _
    · simp only [insertByCreatedAtDesc, hc, if_false]
      exact (List.Perm.cons y ih).trans (List.Perm.swap x y ys)

theorem sortByCreatedAtDesc_perm (l : List JobListing) :
    (sortByCreatedAtDesc l).Perm l := by
  induction l with
  | nil => exact List.Perm.refl _
  | cons x xs ih =>
    exact (insertByCreatedAtDesc_perm x _).trans (List.Perm.cons x ih)

theorem pairwise_insertByCreatedAtDesc (x : JobListing) (l : List JobListing)
    (h : l.Pairwise (fun p q => q.metadata.createdAt ≤ p.metadata.createdAt)) :
    (insertByCreatedAtDesc x l).Pairwise
      (fun p q => q.metadata.createdAt ≤ p.metadata.createdAt) := by
  induction l with
  | nil => simp [insertByCreatedAtDesc]
  | cons y ys ih =>
    rcases List.pairwise_cons.mp h with ⟨hy, hys⟩
    by_cases hc : y.metadata.createdAt ≤ x.metadata.createdAt
    · simp only [insertByCreatedAtDesc, hc, if_true]
      refine List.pairwise_cons.mpr ⟨?_, h⟩
      intro z hz
      rcases List.mem_cons.mp hz with rfl | hz2
      · exact hc
      · exact (hy z hz2).trans hc
    · simp only [insertByCreatedAtDesc, hc, if_false]
      refine List.pairwise_cons.mpr ⟨?_, ih hys⟩
      intro z hz
      have hz2 : z = x ∨ z ∈ ys := by
        have := (insertByCreatedAtDesc_perm x ys).mem_iff.mp hz
        simpa using this
      rcases hz2 with rfl | hz2
      · exact Nat.le_of_lt (Nat.lt_of_not_le hc)
      · exact hy z hz2

theorem sortByCreatedAtDesc_pairwise (l : List JobListing) :
    (sortByCreatedAtDesc l).Pairwise
      (fun p q => q.metadata.createdAt ≤ p.metadata.createdAt) := by
  induction l with
  | nil => simp [sortByCreatedAtDesc]
  | cons x xs ih => exact pairwise_insertByCreatedAtDesc x _ ih

/-! ### Claim C1 -/

/-- Claim C1: for every jobId, fromState, toState and actor such that the
transition is illegal or the actor is not authorized (that is,
`validateTransition` returns invalid), `moveJob` returns the invalid-transition
error and leaves the storage tree exactly as it was: no folder is renamed, no
metadata is written, no log line is appended. -/
theorem moveJob_invalid_rejected (fs : FS) (now : Nat) (jobId : String)
    (fromState toState : JobState) (actor : Actor)
    (h : (validateTransition fromState toState actor).valid = false) :
    moveJob fs now jobId fromState toState actor =
      (.error ("Invalid transition: "
        ++ ((validateTransition fromState toState actor).reason.getD "")), fs) := by
  simp only [moveJob, h, Bool.false_eq_true, if_false]

/-- Witness for C1: the illegal pair DONE → CLAIMED requested by SYSTEM on a
tree whose DONE directory holds the job; the call errors and the tree is
unchanged. -/
theorem moveJob_invalid_rejected_witness :
    (validateTransition .DONE .CLAIMED .SYSTEM).valid = false ∧
    moveJob fsC1 30 "jw1" .DONE .CLAIMED .SYSTEM =
      (.error ("Invalid transition: "
        ++ ((validateTransition .DONE .CLAIMED .SYSTEM).reason.getD "")), fsC1) :=
  ⟨rfl, moveJob_invalid_rejected fsC1 30 "jw1" .DONE .CLAIMED .SYSTEM rfl⟩

/-! ### Claim C2 -/

/-- Claim C2 (evaluation of the code at the divergence): in the shipped
transition table the DONE row has no outbound transitions, so
`validateTransition DONE CLAIMED actor` is invalid for every actor — in
particular for SYSTEM, the actor the lyrics worker uses when it tries to
re-claim a DONE job, which therefore always throws. -/
theorem validateTransition_done_claimed_invalid (act : Actor) :
    (validateTransition .DONE .CLAIMED act).valid = false := by
  cases act <;> rfl

/-! ### Claim C3 -/

/-- Counterexample for C3: the lyrics worker is not among the actors
authorized for RUNNING → DONE or RUNNING → FAILED, contradicting the claim
that every stage worker is. -/
theorem validateTransition_lyrics_counterexample :
    (validateTransition .RUNNING .DONE .LYRICS_WORKER).valid = false ∧
    (validateTransition .RUNNING .FAILED .LYRICS_WORKER).valid = false :=
  ⟨rfl, rfl⟩

/-- Claim C3 as amended: the download, demucs and audacity workers are each
authorized for RUNNING → DONE and RUNNING → FAILED; the lyrics worker is
authorized for neither. -/
theorem validateTransition_running_stage_workers :
    (validateTransition .RUNNING .DONE .DOWNLOAD_WORKER).valid = true ∧
    (validateTransition .RUNNING .FAILED .DOWNLOAD_WORKER).valid = true ∧
    (validateTransition .RUNNING .DONE .DEMUCS_WORKER).valid = true ∧
    (validateTransition .RUNNING .FAILED .DEMUCS_WORKER).valid = true ∧
    (validateTransition .RUNNING .DONE .AUDACITY_WORKER).valid = true ∧
    (validateTransition .RUNNING .FAILED .AUDACITY_WORKER).valid = true ∧
    (validateTransition .RUNNING .DONE .LYRICS_WORKER).valid = false ∧
    (validateTransition .RUNNING .FAILED .LYRICS_WORKER).valid = false := by
  decide

/-! ### Claim C4 -/

/-- Claim C4 (evaluation of the code at the failing input): `writeArtifact`
creates the stage subdirectory, writes the file and returns its path — but a
second call with the same (stageName, fileName) pair does NOT fail: it
succeeds again and silently replaces the previously written bytes (v1
becomes v2), although the header comment of the module declares artifacts immutable
once written. -/
theorem writeArtifact_overwrites :
    (writeArtifact fsC4 "j4" "lyrics" "lyrics.lrc" "v1").1 =
      .ok "jobs/RUNNING/j4/lyrics/lyrics.lrc" ∧
    fsC4a.dir .RUNNING =
      [("j4", ⟨some mC4, [], [⟨"lyrics", "lyrics.lrc", "v1"⟩]⟩)] ∧
    (writeArtifact fsC4a "j4" "lyrics" "lyrics.lrc" "v2").1 =
      .ok "jobs/RUNNING/j4/lyrics/lyrics.lrc" ∧
    (writeArtifact fsC4a "j4" "lyrics" "lyrics.lrc" "v2").2.dir .RUNNING =
      [("j4", ⟨some mC4, [], [⟨"lyrics", "lyrics.lrc", "v2"⟩]⟩)] :=
  ⟨rfl, rfl, rfl, rfl⟩

/-! ### Claim C8 -/

/-- Counterexample for C8: two jobs with equal `createdAt` whose NEW
directory lists `zz` before `aa`. The enumeration keeps them in that readdir
order (the sort is stable and compares `createdAt` only), so the result is
not in the claimed order (`createdAt` descending, ties broken by jobId
lexicographic), which would list `aa` first. -/
theorem listAllJobs_tie_counterexample :
    (listAllJobs fsC8).map JobListing.jobId = ["zz", "aa"] ∧
    specOrdered (listAllJobs fsC8) = false := by
  constructor
  · rfl
  · rfl

/-- Claim C8 as amended: the enumeration returns the jobs sorted by
`createdAt` descending, and is a permutation of the unsorted enumeration;
ties on `createdAt` are left in enumeration order (state-directory scan
order, then readdir order) — they are NOT broken by jobId. -/
theorem listAllJobs_sorted_desc (fs : FS) :
    (listAllJobs fs).Pairwise
      (fun p q => q.metadata.createdAt ≤ p.metadata.createdAt) ∧
    (listAllJobs fs).Perm (listAllJobsUnsorted fs) :=
  ⟨sortByCreatedAtDesc_pairwise _, sortByCreatedAtDesc_perm _⟩

/-! ### Claim C10 -/

/-- Claim C10: when the job folder exists in `fromState` but holds no
readable metadata record, a valid authorized `moveJob` still succeeds: the
folder (log and artifacts included) is renamed into the `toState` directory
unchanged, and no metadata write and no transition log line happen — the
result tree differs from the input only by the rename. -/
theorem moveJob_missing_metadata (fs : FS) (now : Nat) (jobId : String)
    (a b : JobState) (act : Actor) (folder : JobFolder)
    (hu : jobUnique fs jobId a folder) (hmeta : folder.meta = none)
    (hvalid : (validateTransition a b act).valid = true) (hab : a ≠ b) :
    moveJob fs now jobId a b act =
      (.ok (), (fs.setDir a (removeFromDir (fs.dir a) jobId)).setDir b
        (fs.dir b ++ [(jobId, folder)])) := by
  obtain ⟨h1, h2, h3⟩ := hu
  have hb : findInDir (fs.dir b) jobId = none := h3 b (Ne.symm hab)
  have hd1b : (fs.setDir a (removeFromDir (fs.dir a) jobId)).dir b = fs.dir b :=
    dir_setDir_ne _ _ _ _ (Ne.symm hab)
  set F2 : FS := (fs.setDir a (removeFromDir (fs.dir a) jobId)).setDir b
    (fs.dir b ++ [(jobId, folder)]) with hF2
  have h2b : F2.dir b = fs.dir b ++ [(jobId, folder)] := dir_setDir_self _ _ _
  have h3' : ∀ st2, st2 ≠ b → findInDir (F2.dir st2) jobId = none := by
    intro st2 hne
    rw [hF2, dir_setDir_ne _ _ _ _ hne]
    by_cases hsa : st2 = a
    · subst hsa; rw [dir_setDir_self]; exact h2
    · rw [dir_setDir_ne _ _ _ _ hsa]; exact h3 st2 hsa
  have h1' : findInDir (F2.dir b) jobId = some (jobId, folder) := by
    rw [h2b, findInDir_append_of_none hb, findInDir_cons_self]
  have hrm : readMetadata F2 jobId = none := by
    rw [readMetadata_eq_of_unique F2 jobId b folder h1' h3', hmeta]
  rw [moveJob]
  simp only [hvalid, if_true, h1, hb, Option.isSome_none, Bool.false_eq_true,
    if_false]
  rw [hd1b, ← hF2, hrm]

/-- Witness for C10: a NEW folder with a log line but no metadata.json moves
to CLAIMED under SYSTEM; the call succeeds, the folder arrives unchanged,
and no metadata or log write happens. -/
theorem moveJob_missing_metadata_witness :
    jobUnique fsC10 "j10" .NEW folderC10 ∧
    moveJob fsC10 77 "j10" .NEW .CLAIMED .SYSTEM =
      (.ok (), (fsC10.setDir .NEW (removeFromDir (fsC10.dir .NEW) "j10")).setDir
        .CLAIMED (fsC10.dir .CLAIMED ++ [("j10", folderC10)])) := by
  have hu : jobUnique fsC10 "j10" .NEW folderC10 := by
    refine ⟨rfl, rfl, ?_⟩
    intro st2 h
    cases st2 <;> first | rfl | exact absurd rfl h
  exact ⟨hu, moveJob_missing_metadata fsC10 77 "j10" .NEW .CLAIMED .SYSTEM
    folderC10 hu rfl rfl (by decide)⟩

/-! ### Claim C9 -/

/-- Counterexample for C9: two successful `moveJob` calls on the same job
within the same millisecond (clock instant 1000 both times — `new Date()`
has millisecond precision). Both calls succeed, yet `updatedAt` is 1000
after the first call and still 1000 after the second: it did not strictly
increase between the two successful calls. -/
theorem moveJob_updatedAt_not_strict_counterexample :
    (moveJob fsC9 1000 "j9" .NEW .CLAIMED .SYSTEM).1 = .ok () ∧
    (moveJob fsC9a 1000 "j9" .CLAIMED .RUNNING .DOWNLOAD_WORKER).1 = .ok () ∧
    (readMetadata fsC9a "j9").map JobMetadata.updatedAt = some 1000 ∧
    (readMetadata (moveJob fsC9a 1000 "j9" .CLAIMED .RUNNING
      .DOWNLOAD_WORKER).2 "j9").map JobMetadata.updatedAt = some 1000 :=
  ⟨rfl, rfl, rfl, rfl⟩

/-- Claim C9 as amended: `moveJob` never changes `createdAt`, and a
successful `moveJob` sets `updatedAt` to the clock instant of the call.
Consequently `createdAt ≤ updatedAt` holds whenever the clock is at or past
the creation instant, and `updatedAt` strictly increases between two
successful `moveJob` calls exactly when the wall clock strictly advances
between them; two mutations within the same millisecond leave `updatedAt`
equal (the code does not enforce strictness). -/
theorem moveJob_sets_updatedAt (fs : FS) (now : Nat) (jobId : String)
    (a b : JobState) (act : Actor) (folder : JobFolder) (m : JobMetadata)
    (hu : jobUnique fs jobId a folder) (hmeta : folder.meta = some m)
    (hvalid : (validateTransition a b act).valid = true) (hab : a ≠ b) :
    (moveJob fs now jobId a b act).1 = .ok () ∧
    (readMetadata (moveJob fs now jobId a b act).2 jobId).map
      JobMetadata.updatedAt = some now ∧
    (readMetadata (moveJob fs now jobId a b act).2 jobId).map
      JobMetadata.createdAt = some m.createdAt := by
  obtain ⟨h1, h2, h3⟩ := hu
  have hmove := moveJob_effect fs now jobId a b act folder m ⟨h1, h2, h3⟩
    hmeta hvalid hab
  rw [hmove]
  have hb : findInDir (fs.dir b) jobId = none := h3 b (Ne.symm hab)
  set folderOut : JobFolder :=
    ⟨some { m with state := b, updatedAt := now },
     folder.log ++
       [⟨now, "Transitioned to " ++ stateDirName b ++ " by " ++ actorName act⟩],
     folder.artifacts⟩ with hfolderOut
  set FOut : FS := (fs.setDir a (removeFromDir (fs.dir a) jobId)).setDir b
    (fs.dir b ++ [(jobId, folderOut)]) with hFOut
  have h1o : findInDir (FOut.dir b) jobId = some (jobId, folderOut) := by
    rw [hFOut, dir_setDir_self, findInDir_append_of_none hb, findInDir_cons_self]
  have h3o : ∀ st2, st2 ≠ b → findInDir (FOut.dir st2) jobId = none := by
    intro st2 hne
    rw [hFOut, dir_setDir_ne _ _ _ _ hne]
    by_cases hsa : st2 = a
    · subst hsa; rw [dir_setDir_self]; exact h2
    · rw [dir_setDir_ne _ _ _ _ hsa]; exact h3 st2 hsa
  have hrm : readMetadata FOut jobId = some { m with state := b, updatedAt := now } :=
    readMetadata_eq_of_unique FOut jobId b folderOut h1o h3o
  exact ⟨rfl, by rw [hrm]; rfl, by rw [hrm]; rfl⟩

/-- Witness for C9: applying the amended statement to the concrete NEW job
`j9` at clock instant 1000. -/
theorem moveJob_sets_updatedAt_witness :
    jobUnique fsC9 "j9" .NEW folderC9 ∧
    ((moveJob fsC9 1000 "j9" .NEW .CLAIMED .SYSTEM).1 = .ok () ∧
     (readMetadata (moveJob fsC9 1000 "j9" .NEW .CLAIMED .SYSTEM).2 "j9").map
       JobMetadata.updatedAt = some 1000 ∧
     (readMetadata (moveJob fsC9 1000 "j9" .NEW .CLAIMED .SYSTEM).2 "j9").map
       JobMetadata.createdAt = some mC9.createdAt) := by
  have hu : jobUnique fsC9 "j9" .NEW folderC9 := by
    refine ⟨rfl, rfl, ?_⟩
    intro st2 h
    cases st2 <;> first | rfl | exact absurd rfl h
  exact ⟨hu, moveJob_sets_updatedAt fsC9 1000 "j9" .NEW .CLAIMED .SYSTEM
    folderC9 mC9 hu rfl rfl (by decide)⟩

/-! ### Claim C7 -/

/-- Claim C7: `moveJobIdempotent` on a job with readable metadata: when the
metadata state already equals `toState` it returns success without touching
the tree; when the metadata state equals neither `toState` nor the expected
`fromState` it fails with the unexpected-state error without touching the
tree; otherwise its result and its effect on the tree are exactly those of
`moveJob` with the same arguments. -/
theorem moveJobIdempotent_spec (fs : FS) (now : Nat) (jobId : String)
    (fromState toState : JobState) (actor : Actor) (m : JobMetadata)
    (hm : readMetadata fs jobId = some m) :
    (m.state = toState →
      moveJobIdempotent fs now jobId fromState toState actor = (.ok true, fs)) ∧
    (m.state ≠ toState → m.state ≠ fromState →
      moveJobIdempotent fs now jobId fromState toState actor =
        (.error ("Job " ++ jobId ++ " is in state " ++ stateDirName m.state
          ++ ", expected " ++ stateDirName fromState), fs)) ∧
    (m.state = fromState → m.state ≠ toState →
      moveJobIdempotent fs now jobId fromState toState actor =
        ((moveJob fs now jobId fromState toState actor).1.map (fun _ => true),
         (moveJob fs now jobId fromState toState actor).2)) := by
  refine ⟨?_, ?_, ?_⟩
  · intro h
    simp only [moveJobIdempotent, hm]
    rw [if_pos h]
  · intro h1 h2
    simp only [moveJobIdempotent, hm]
    rw [if_neg h1, if_pos h2]
  · intro heq hne
    simp only [moveJobIdempotent, hm]
    rw [if_neg hne, if_neg (fun hh => hh heq)]

/-- Witness for C7: the job `j7` has metadata state CLAIMED, so asking to
move it to CLAIMED returns idempotent success with the tree untouched. -/
theorem moveJobIdempotent_spec_witness :
    readMetadata fsC7 "j7" = some mC7 ∧
    moveJobIdempotent fsC7 9 "j7" .NEW .CLAIMED .SYSTEM = (.ok true, fsC7) :=
  ⟨rfl, (moveJobIdempotent_spec fsC7 9 "j7" .NEW .CLAIMED .SYSTEM mC7 rfl).1 rfl⟩

/-! ### Claim C5 -/

/-- Claim C5: `reclaimJob` on a job with readable metadata. If the state is
NEW, DONE or FAILED the call returns without touching the tree; if the state
is CLAIMED or RUNNING and `leaseExpiresAt` is still in the future the call
returns without touching the tree; if the state is CLAIMED or RUNNING and
the lease is absent or not in the future, the job is moved back to NEW under
actor SYSTEM (folder renamed, metadata rewritten with state NEW and a fresh
`updatedAt`) and the transition and reclaim lines are appended to its log. -/
theorem reclaimJob_spec (fs : FS) (now : Nat) (jobId : String) (m : JobMetadata)
    (hm : readMetadata fs jobId = some m) :
    ((m.state = .NEW ∨ m.state = .DONE ∨ m.state = .FAILED) →
      reclaimJob fs now jobId = (.ok (), fs)) ∧
    ((m.state = .CLAIMED ∨ m.state = .RUNNING) →
      ∀ t, m.leaseExpiresAt = some t → now < t →
        reclaimJob fs now jobId = (.ok (), fs)) ∧
    (∀ folder, (m.state = .CLAIMED ∨ m.state = .RUNNING) →
      (∀ t, m.leaseExpiresAt = some t → t ≤ now) →
      jobUnique fs jobId m.state folder →
      folder.meta = some m →
      reclaimJob fs now jobId =
        (.ok (), (fs.setDir m.state (removeFromDir (fs.dir m.state) jobId)).setDir
          .NEW (fs.dir .NEW ++ [(jobId,
            ⟨some { m with state := JobState.NEW, updatedAt := now },
             folder.log ++
               [⟨now, "Transitioned to " ++ stateDirName JobState.NEW ++ " by "
                  ++ actorName Actor.SYSTEM⟩,
                ⟨now, "Reclaimed from " ++ stateDirName m.state
                  ++ " (lease expired)"⟩],
             folder.artifacts⟩)]))) := by
  refine ⟨?_, ?_, ?_⟩
  · intro hst
    simp only [reclaimJob, hm]
    rw [if_pos hst]
  · intro hst t hl hnow
    have hnot : ¬(m.state = .NEW ∨ m.state = .DONE ∨ m.state = .FAILED) := by
      rcases hst with h | h <;> rw [h] <;> simp
    simp only [reclaimJob, hm]
    rw [if_neg hnot, if_pos hst, hl]
    dsimp only
    rw [if_pos hnow]
  · intro folder hst hlease hu hmeta
    have hnot : ¬(m.state = .NEW ∨ m.state = .DONE ∨ m.state = .FAILED) := by
      rcases hst with h | h <;> rw [h] <;> simp
    obtain ⟨h1, h2, h3⟩ := hu
    have hvalid : (validateTransition m.state .NEW .SYSTEM).valid = true := by
      rcases hst with h | h <;> rw [h] <;> rfl
    have hab : m.state ≠ .NEW := by
      rcases hst with h | h <;> rw [h] <;> decide
    have hmove := moveJob_effect fs now jobId m.state .NEW .SYSTEM folder m
      ⟨h1, h2, h3⟩ hmeta hvalid hab
    have hbnone : findInDir (fs.dir .NEW) jobId = none := h3 .NEW (Ne.symm hab)
    set folderOut : JobFolder :=
      ⟨some { m with state := JobState.NEW, updatedAt := now },
       folder.log ++ [⟨now, "Transitioned to " ++ stateDirName JobState.NEW
         ++ " by " ++ actorName Actor.SYSTEM⟩],
       folder.artifacts⟩ with hfolderOut
    set FOut : FS :=
      (fs.setDir m.state (removeFromDir (fs.dir m.state) jobId)).setDir .NEW
        (fs.dir .NEW ++ [(jobId, folderOut)]) with hFOut
    have h1o : findInDir (FOut.dir .NEW) jobId = some (jobId, folderOut) := by
      rw [hFOut, dir_setDir_self, findInDir_append_of_none hbnone,
        findInDir_cons_self]
    have h3o : ∀ st2, st2 ≠ .NEW → findInDir (FOut.dir st2) jobId = none := by
      intro st2 hne
      rw [hFOut, dir_setDir_ne _ _ _ _ hne]
      by_cases hsa : st2 = m.state
      · rw [hsa, dir_setDir_self]; exact h2
      · rw [dir_setDir_ne _ _ _ _ hsa]; exact h3 st2 hsa
    have hgsd : getJobStateDir FOut jobId = some .NEW :=
      getJobStateDir_eq_of_unique FOut jobId .NEW _ h1o h3o
    have hmain : reclaimMove fs now jobId m =
        (.ok (), (fs.setDir m.state (removeFromDir (fs.dir m.state) jobId)).setDir
          .NEW (fs.dir .NEW ++ [(jobId,
            ⟨some { m with state := JobState.NEW, updatedAt := now },
             folder.log ++
               [⟨now, "Transitioned to " ++ stateDirName JobState.NEW ++ " by "
                  ++ actorName Actor.SYSTEM⟩,
                ⟨now, "Reclaimed from " ++ stateDirName m.state
                  ++ " (lease expired)"⟩],
             folder.artifacts⟩)])) := by
      simp only [reclaimMove, hmove]
      simp only [appendToJobLog, hgsd]
      rw [hFOut, dir_setDir_self, appendLogInDir_append_of_none hbnone,
        appendLogInDir_cons_self, setDir_setDir_self]
      rw [hfolderOut]
      simp only [List.append_assoc, List.cons_append, List.nil_append]
    simp only [reclaimJob, hm]
    rw [if_neg hnot, if_pos hst]
    refine Eq.trans ?_ hmain
    cases hl : m.leaseExpiresAt with
    | none => rfl
    | some t =>
      dsimp only
      rw [if_neg (Nat.not_lt.mpr (hlease t hl))]

/-- Witness for C5: the CLAIMED job `jw5` with lease expiry 100 is reclaimed
at clock instant 200: it moves back to NEW under SYSTEM and the reclaim is
logged. -/
theorem reclaimJob_spec_witness :
    readMetadata fsC5 "jw5" = some mC5 ∧
    reclaimJob fsC5 200 "jw5" =
      (.ok (), (fsC5.setDir mC5.state (removeFromDir (fsC5.dir mC5.state) "jw5")).setDir
        .NEW (fsC5.dir .NEW ++ [("jw5",
          ⟨some { mC5 with state := JobState.NEW, updatedAt := 200 },
           folderC5.log ++
             [⟨200, "Transitioned to " ++ stateDirName JobState.NEW ++ " by "
                ++ actorName Actor.SYSTEM⟩,
              ⟨200, "Reclaimed from " ++ stateDirName mC5.state
                ++ " (lease expired)"⟩],
           folderC5.artifacts⟩)])) := by
  have hu : jobUnique fsC5 "jw5" mC5.state folderC5 := by
    refine ⟨rfl, rfl, ?_⟩
    intro st2 h
    cases st2 <;> first | rfl | exact absurd rfl h
  have hlease : ∀ t, mC5.leaseExpiresAt = some t → t ≤ 200 := by
    intro t ht
    have h100 : (some 100 : Option Nat) = some t := ht
    have ht2 : t = 100 := (Option.some.inj h100).symm
    omega
  exact ⟨rfl, (reclaimJob_spec fsC5 200 "jw5" mC5 rfl).2.2 folderC5 (Or.inl rfl)
    hlease hu rfl⟩

/-! ### Claim C6 -/

/-- Counterexample for C6: the job `j6` failed in its lyrics stage (its
lyrics record is the FAILED one; its download record is COMPLETE).
`retryJob` succeeds and moves it to NEW, but the failed stage record — the
lyrics record — is NOT cleared: it survives the retry, while the download
record (the one belonging to a stage that did not fail) is cleared instead. -/
theorem retryJob_failed_stage_counterexample :
    (retryJob fsC6 50 "j6" "again").1 =
      .ok ⟨"j6", .NEW, "Job j6 has been reset and will be retried"⟩ ∧
    (readMetadata (retryJob fsC6 50 "j6" "again").2 "j6").map
      (fun mm => mm.lyrics) = some (some ⟨.FAILED, some "no lyrics found"⟩) ∧
    (readMetadata (retryJob fsC6 50 "j6" "again").2 "j6").map
      (fun mm => mm.download) = some none ∧
    (readMetadata (retryJob fsC6 50 "j6" "again").2 "j6").map
      (fun mm => mm.state) = some .NEW :=
  ⟨rfl, rfl, rfl, rfl⟩

/-- Claim C6 as amended: `retryJob` succeeds exactly when the current state
is FAILED; on success it logs a line containing the reason, moves the job to
NEW under actor USER, and unconditionally clears the `download` stage record
(not the failed stage record — records of other stages, including the one
that failed, are left intact); on any non-FAILED state it fails and the tree
is unchanged. -/
theorem retryJob_spec (fs : FS) (now : Nat) (jobId reason : String)
    (m : JobMetadata) (hm : readMetadata fs jobId = some m) :
    (m.state ≠ .FAILED →
      retryJob fs now jobId reason =
        (.error ("Cannot retry job in state " ++ stateDirName m.state
          ++ ". Only FAILED jobs can be retried."), fs)) ∧
    (∀ folder, m.state = .FAILED →
      jobUnique fs jobId .FAILED folder →
      folder.meta = some m →
      retryJob fs now jobId reason =
        (.ok ⟨jobId, .NEW, "Job " ++ jobId ++ " has been reset and will be retried"⟩,
         (fs.setDir .FAILED (removeFromDir (fs.dir .FAILED) jobId)).setDir .NEW
           (fs.dir .NEW ++ [(jobId,
             ⟨some { m with state := JobState.NEW, updatedAt := now, download := none },
              folder.log ++
                [⟨now, "[USER] Retrying job: " ++ reason⟩,
                 ⟨now, "Transitioned to " ++ stateDirName JobState.NEW ++ " by "
                   ++ actorName Actor.USER⟩],
              folder.artifacts⟩)]))) := by
  refine ⟨?_, ?_⟩
  · intro hne
    simp only [retryJob, hm]
    rw [if_neg hne]
  · intro folder hst hu hmeta
    obtain ⟨h1, h2, h3⟩ := hu
    have hgsd0 : getJobStateDir fs jobId = some .FAILED :=
      getJobStateDir_eq_of_unique fs jobId .FAILED _ h1 h3
    have happ0 : appendToJobLog fs now jobId ("[USER] Retrying job: " ++ reason) =
        (.ok (), fs.setDir .FAILED (appendLogInDir (fs.dir .FAILED) jobId
          ⟨now, "[USER] Retrying job: " ++ reason⟩)) := by
      simp only [appendToJobLog, hgsd0]
    have huA : jobUnique (fs.setDir .FAILED (appendLogInDir (fs.dir .FAILED) jobId
        ⟨now, "[USER] Retrying job: " ++ reason⟩)) jobId .FAILED
        { folder with log := folder.log ++ [⟨now, "[USER] Retrying job: " ++ reason⟩] } := by
      refine ⟨?_, ?_, ?_⟩
      · rw [dir_setDir_self]
        exact findInDir_appendLogInDir_self _ h1
      · rw [dir_setDir_self, removeFromDir_appendLogInDir]
        exact h2
      · intro st2 hne
        rw [dir_setDir_ne _ _ _ _ hne]
        exact h3 st2 hne
    have hmove := moveJob_effect
      (fs.setDir .FAILED (appendLogInDir (fs.dir .FAILED) jobId
        ⟨now, "[USER] Retrying job: " ++ reason⟩)) now jobId .FAILED .NEW .USER
      { folder with log := folder.log ++ [⟨now, "[USER] Retrying job: " ++ reason⟩] }
      m huA hmeta rfl (by decide)
    have e1 : (fs.setDir .FAILED (appendLogInDir (fs.dir .FAILED) jobId
        ⟨now, "[USER] Retrying job: " ++ reason⟩)).dir .FAILED =
        appendLogInDir (fs.dir .FAILED) jobId
          ⟨now, "[USER] Retrying job: " ++ reason⟩ := dir_setDir_self _ _ _
    have e2 : (fs.setDir .FAILED (appendLogInDir (fs.dir .FAILED) jobId
        ⟨now, "[USER] Retrying job: " ++ reason⟩)).dir .NEW = fs.dir .NEW :=
      dir_setDir_ne _ _ _ _ (by decide)
    rw [e1, removeFromDir_appendLogInDir, e2, setDir_setDir_self] at hmove
    dsimp only at hmove
    set mN : JobMetadata := { m with state := JobState.NEW, updatedAt := now }
      with hmN
    set folderB : JobFolder :=
      ⟨some mN,
       (folder.log ++ [⟨now, "[USER] Retrying job: " ++ reason⟩]) ++
         [⟨now, "Transitioned to " ++ stateDirName JobState.NEW ++ " by "
           ++ actorName Actor.USER⟩],
       folder.artifacts⟩ with hfolderB
    set fsB : FS := (fs.setDir .FAILED (removeFromDir (fs.dir .FAILED) jobId)).setDir
      .NEW (fs.dir .NEW ++ [(jobId, folderB)]) with hfsB
    have hbnone : findInDir (fs.dir .NEW) jobId = none := h3 .NEW (by decide)
    have h1B : findInDir (fsB.dir .NEW) jobId = some (jobId, folderB) := by
      rw [hfsB, dir_setDir_self, findInDir_append_of_none hbnone,
        findInDir_cons_self]
    have h3B : ∀ st2, st2 ≠ .NEW → findInDir (fsB.dir st2) jobId = none := by
      intro st2 hne
      rw [hfsB, dir_setDir_ne _ _ _ _ hne]
      by_cases hsa : st2 = .FAILED
      · rw [hsa, dir_setDir_self]; exact h2
      · rw [dir_setDir_ne _ _ _ _ hsa]; exact h3 st2 hsa
    have hrmB : readMetadata fsB jobId = some mN :=
      readMetadata_eq_of_unique fsB jobId .NEW folderB h1B h3B
    have e3 : fsB.dir .NEW = fs.dir .NEW ++ [(jobId, folderB)] := by
      rw [hfsB]; exact dir_setDir_self _ _ _
    have hw : writeMetadata fsB now jobId { mN with download := none } =
        (fs.setDir .FAILED (removeFromDir (fs.dir .FAILED) jobId)).setDir .NEW
          (fs.dir .NEW ++ [(jobId,
            ⟨some { m with state := JobState.NEW, updatedAt := now, download := none },
             folder.log ++
               [⟨now, "[USER] Retrying job: " ++ reason⟩,
                ⟨now, "Transitioned to " ++ stateDirName JobState.NEW ++ " by "
                  ++ actorName Actor.USER⟩],
             folder.artifacts⟩)]) := by
      simp only [writeMetadata]
      try rw [show ({ mN with download := none } : JobMetadata).state = JobState.NEW
          from rfl]
      try rw [show mN.state = JobState.NEW from rfl]
      rw [e3, setMetaInDir_append_of_none hbnone, setMetaInDir_cons_self]
      rw [hfsB, setDir_setDir_self, hfolderB]
      simp only [hmN, List.append_assoc, List.cons_append, List.nil_append]
    simp only [retryJob, hm]
    rw [if_pos hst, happ0]
    dsimp only
    rw [hmove]
    dsimp only
    rw [hrmB]
    dsimp only
    rw [hw]

/-- Witness for C6: retrying the concrete lyrics-failed job `j6` with reason
"again" at clock instant 50. -/
theorem retryJob_spec_witness :
    readMetadata fsC6 "j6" = some mC6 ∧
    retryJob fsC6 50 "j6" "again" =
      (.ok ⟨"j6", .NEW, "Job " ++ "j6" ++ " has been reset and will be retried"⟩,
       (fsC6.setDir .FAILED (removeFromDir (fsC6.dir .FAILED) "j6")).setDir .NEW
         (fsC6.dir .NEW ++ [("j6",
           ⟨some { mC6 with state := JobState.NEW, updatedAt := 50, download := none },
            folderC6.log ++
              [⟨50, "[USER] Retrying job: " ++ "again"⟩,
               ⟨50, "Transitioned to " ++ stateDirName JobState.NEW ++ " by "
                 ++ actorName Actor.USER⟩],
            folderC6.artifacts⟩)])) := by
  have hu : jobUnique fsC6 "j6" .FAILED folderC6 := by
    refine ⟨rfl, rfl, ?_⟩
    intro st2 h
    cases st2 <;> first | rfl | exact absurd rfl h
  exact ⟨rfl, (retryJob_spec fsC6 50 "j6" "again" mC6 rfl).2 folderC6 rfl hu rfl⟩
